import Mathlib

/-!
Verification of the gardenzilla pricing microservice core
(`src/main.rs`, `PricingService`).

The service orchestrates a keyed collection of SKU price records
(`VecPack<price::Sku>` behind a `tokio::sync::Mutex`), a tax rule, and a
downstream UPL (inventory/label) notification client.  The store-level
operations of `main.rs` are translated here as pure state-passing
functions over a `List Sku`; the `price` module and the `prelude` module
of the repository are not present under `src/`, so their definitions are
modelled from the specification where noted.
-/

/-- Modelled from the spec: the `price::VAT` tax-category enumeration of the
absent `price` module (§3): three exemption categories (multiplier 1.0) and
the percentage bands 5%, 18%, 27%.  The spec names the categories
`EXEMPT_A`/`EXEMPT_B`/`EXEMPT_C`; the example in §8 shows the short code
`"aam"` for an exemption, so the Hungarian exemption codes are used as the
three literals. -/
inductive VAT
  | AAM
  | TAM
  | FAD
  | V5
  | V18
  | V27
  deriving DecidableEq, Repr

/-- Lower-case a string character by character (the structural spelling
of `String.toLower`, which recurses on byte positions). -/
def lowerAscii (s : String) : String :=
  ⟨s.data.map Char.toLower⟩

/-- Modelled from the spec: `parse(code) -> Category` of the absent `price`
module (§4.1): case-insensitive on the three exemption codes, plus the three
numeric percentage strings; every other code fails with an
invalid-tax-code error. -/
def VAT.from_str (s : String) : Except String VAT :=
  match lowerAscii s with
  | "aam" => .ok .AAM
  | "tam" => .ok .TAM
  | "fad" => .ok .FAD
  | "5" => .ok .V5
  | "18" => .ok .V18
  | "27" => .ok .V27
  | _ => .error "Invalid tax code"

/-- Modelled from the spec: the multiplier of §4.1, scaled by 100 so that it
is an exact integer (1.0 → 100, 5% → 105, 18% → 118, 27% → 127). -/
def VAT.pct : VAT → Int
  | .AAM => 100
  | .TAM => 100
  | .FAD => 100
  | .V5 => 105
  | .V18 => 118
  | .V27 => 127

/-- Round-half-away-from-zero of the rational `a / 100`, on integers.
For `a ≥ 0` this is `(a + 50) / 100`; the negative case mirrors it. -/
def roundHalfAway100 (a : Int) : Int :=
  if 0 ≤ a then (a + 50) / 100 else -((-a + 50) / 100)

/-- Modelled from the spec: `gross(net, category) = round(net *
multiplier(category))` of §4.1, rounding half away from zero, on integer
minor-currency units. -/
def grossOf (net : Int) (v : VAT) : Int :=
  roundHalfAway100 (net * v.pct)

/-- Modelled from the spec: a History Entry of the absent `price` module
(§3): net price, tax category, resulting gross price, actor, timestamp.
`main.rs` reads the `created_at` field of history items.  Timestamps
(`DateTime<Utc>`) are modelled as integers, ordered as instants. -/
structure HistoryEntry where
  net : Int
  vat : VAT
  gross : Int
  created_by : String
  created_at : Int
  deriving DecidableEq, Repr

/-- The SKU price record (`price::Sku`).  `main.rs` reads the fields
`sku`, `net_retail_price`, `vat`, `gross_retail_price` and `history`;
the record itself lives in the absent `price` module and is modelled
from the spec (§3). -/
structure Sku where
  sku : Nat
  net_retail_price : Int
  vat : VAT
  gross_retail_price : Int
  history : List HistoryEntry
  deriving DecidableEq, Repr

/-- Modelled from the spec: `Sku::new(sku_id)` (§4.2): zeroed net/gross,
default tax category (27%), empty history. -/
def Sku.new (id : Nat) : Sku :=
  { sku := id
    net_retail_price := 0
    vat := .V27
    gross_retail_price := 0
    history := [] }

/-- Modelled from the spec: the state transition of `Sku::set_price`
(§4.2): recompute the gross price authoritatively from the net price and
the (already parsed) category, ignoring the caller-supplied expected
gross; update the current fields and append one History Entry carrying
the same fields, the actor, and the current time. -/
def Sku.applyPrice (s : Sku) (net : Int) (v : VAT) (created_by : String)
    (now : Int) : Sku :=
  let g := grossOf net v
  { s with
    net_retail_price := net
    vat := v
    gross_retail_price := g
    history := s.history ++ [⟨net, v, g, created_by, now⟩] }

/-- Modelled from the spec: `Sku::set_price(net, category, expected_gross,
actor)` of the absent `price` module (§4.2).  The caller-supplied
`expected_gross` is taken and ignored; the operation cannot fail once the
category is valid (the category was parsed upstream), so the error branch
of its `Result` is never taken. -/
def Sku.set_price (s : Sku) (net : Int) (v : VAT) (expected_gross : Int)
    (created_by : String) (now : Int) : Except String Sku :=
  let _ := expected_gross
  .ok (s.applyPrice net v created_by now)

/-- Modelled from the spec: the service-level error type of the absent
`prelude` module.  `ServiceError::bad_request` is used by `main.rs`;
`not_found` is the translation of the collection primitive's `NotFound`
(§6, §7) performed by the `?` conversions; `internal` covers the
primitive's other failures. -/
inductive ServiceError
  | bad_request (msg : String)
  | not_found (msg : String)
  | internal (msg : String)
  deriving DecidableEq, Repr

/-- Modelled from the spec: `find(id)` of the external persisted
keyed-collection primitive (§6): the record with the given id, if any. -/
def find_id : List Sku → Nat → Option Sku
  | [], _ => none
  | s :: rest, id => if s.sku == id then some s else find_id rest id

/-- Modelled from the spec: `find_mut(id)` followed by an in-place
mutation (§6): the record with the given id is replaced by `f` of it,
everything else is untouched. -/
def updateFirst (store : List Sku) (id : Nat) (f : Sku → Sku) : List Sku :=
  match store with
  | [] => []
  | s :: rest =>
    if s.sku == id then f s :: rest else s :: updateFirst rest id f

/-- Modelled from the spec: `insert(record)` of the external collection
primitive (§6): fails on a duplicate id, otherwise appends the record. -/
def vecpackInsert (store : List Sku) (s : Sku) : Except String (List Sku) :=
  if (find_id store s.sku).isSome then .error "duplicate id"
  else .ok (store ++ [s])

/-- The inbound `SetPriceRequest` of the transport interface
(`sku`, `price_net_retail`, `price_gross_retail`, `vat`, `created_by`). -/
structure SetPriceRequest where
  sku : Nat
  price_net_retail : Int
  price_gross_retail : Int
  vat : String
  created_by : String
  deriving DecidableEq, Repr

namespace PricingService

/-- `PricingService::set_price` of `src/main.rs`, as a state-passing
function: look the SKU up; if present, parse the tax code and mutate the
record in place; if absent, build a fresh record, parse the tax code, set
its price and insert it; finally notify the UPL service of the new price
— a failed notification fails the call, but the store mutation has
already happened.  `now` is the wall-clock instant of the call and
`notifyOk` is the outcome of the external UPL notification. -/
def set_price (store : List Sku) (p : SetPriceRequest) (now : Int)
    (notifyOk : Bool) : List Sku × Except ServiceError Sku :=
  match find_id store p.sku with
  | some s =>
    match VAT.from_str p.vat with
    | .error e => (store, .error (.bad_request e))
    | .ok v =>
      match s.set_price p.price_net_retail v p.price_gross_retail
          p.created_by now with
      | .error e => (store, .error (.bad_request e))
      | .ok s1 =>
        let store1 := updateFirst store p.sku
          (fun r =>
            match r.set_price p.price_net_retail v p.price_gross_retail
                p.created_by now with
            | .ok r1 => r1
            | .error _ => r)
        if notifyOk then (store1, .ok s1)
        else (store1, .error (.bad_request "upl notification failed"))
  | none =>
    match VAT.from_str p.vat with
    | .error e => (store, .error (.bad_request e))
    | .ok v =>
      match (Sku.new p.sku).set_price p.price_net_retail v
          p.price_gross_retail p.created_by now with
      | .error e => (store, .error (.bad_request e))
      | .ok new_sku =>
        match vecpackInsert store new_sku with
        | .error e => (store, .error (.internal e))
        | .ok store1 =>
          if notifyOk then (store1, .ok new_sku)
          else (store1, .error (.bad_request "upl notification failed"))

/-- `PricingService::get_price` of `src/main.rs`: point lookup; a missing
record surfaces the collection primitive's not-found as an error. -/
def get_price (store : List Sku) (sku : Nat) : Except ServiceError Sku :=
  match find_id store sku with
  | some s => .ok s
  | none => .error (.not_found "sku not found")

/-- `PricingService::get_price_bulk` of `src/main.rs`: iterate the
collection and keep the records whose id occurs in the requested list;
always succeeds. -/
def get_price_bulk (store : List Sku) (skus : List Nat) :
    Except ServiceError (List Sku) :=
  .ok (store.filter (fun s => skus.contains s.sku))

/-- The predicate of `PricingService::get_latest_price_changes`
(`src/main.rs`): a record passes iff its history has a last entry whose
`created_at` lies in `[from, till]`, both ends inclusive. -/
def changedPred (dfrom dtill : Int) (s : Sku) : Bool :=
  match s.history.getLast? with
  | some price => decide (dfrom ≤ price.created_at) &&
      decide (price.created_at ≤ dtill)
  | none => false

/-- `PricingService::get_latest_price_changes` of `src/main.rs`: parse
the `from` bound, then the `till` bound (each failure is a bad-request
error), then filter the store by `changedPred` and return the SKU ids.
The RFC3339 parser is `chrono`'s (an external library), so it is taken
as a parameter `parseRfc` from strings to instants. -/
def get_latest_price_changes (parseRfc : String → Option Int)
    (store : List Sku) (date_from date_till : String) :
    Except ServiceError (List Nat) :=
  match parseRfc date_from with
  | none => .error (.bad_request "A megadott -tol- datum hibas")
  | some dfrom =>
    match parseRfc date_till with
    | none => .error (.bad_request "A megadott -ig- datum hibas")
    | some dtill =>
      .ok ((store.filter (changedPred dfrom dtill)).map (fun s => s.sku))

/-- `PricingService::get_price_history` of `src/main.rs`: look the SKU
up with `find_id` — whose not-found error propagates through `?` — and
return its history items. -/
def get_price_history (store : List Sku) (sku : Nat) :
    Except ServiceError (List HistoryEntry) :=
  match find_id store sku with
  | some s => .ok s.history
  | none => .error (.not_found "sku not found")

end PricingService

/-!
## Interleaving model of `set_price`'s lock discipline

In `src/main.rs`, `PricingService::set_price` acquires the collection
mutex twice: once for the `find_id_mut` match (whose guard lives for the
whole match statement, covering the in-place mutation on the existing
path and the local construction of the fresh record on the absent path),
and — on the fresh path only — a second, separate time for
`self.skus.lock().await.insert(new_sku)`.  Between the two acquisitions
the lock is free, so actions of other callers can interleave there.
Each lock-protected section is one atomic action below.
-/

deriving instance DecidableEq for Except

/-- The store-interaction state of one in-flight `set_price` call:
about to run its first critical section; between the two critical
sections, holding the locally built fresh record; or finished with the
result of its store phase. -/
inductive TaskSt
  | ready (p : SetPriceRequest) (now : Int)
  | needInsert (new_sku : Sku)
  | finished (result : Except ServiceError Sku)
  deriving DecidableEq, Repr

/-- One atomic (lock-protected) store action of an in-flight `set_price`
call, following `src/main.rs`: the first critical section does the
`find_id_mut` check and, if the record exists, the in-place mutation;
if it is absent it only builds the fresh record locally.  The second
critical section (only reached on the absent path) does the `insert`,
which fails on a duplicate id (§6).  A finished task does nothing. -/
def taskAct (store : List Sku) : TaskSt → List Sku × TaskSt
  | .ready p now =>
    match find_id store p.sku with
    | some s =>
      match VAT.from_str p.vat with
      | .error e => (store, .finished (.error (.bad_request e)))
      | .ok v =>
        (updateFirst store p.sku
          (fun r => r.applyPrice p.price_net_retail v p.created_by now),
         .finished (.ok (s.applyPrice p.price_net_retail v p.created_by now)))
    | none =>
      match VAT.from_str p.vat with
      | .error e => (store, .finished (.error (.bad_request e)))
      | .ok v =>
        (store,
         .needInsert ((Sku.new p.sku).applyPrice p.price_net_retail v
           p.created_by now))
  | .needInsert ns =>
    match vecpackInsert store ns with
    | .ok st => (st, .finished (.ok ns))
    | .error e => (store, .finished (.error (.internal e)))
  | .finished r => (store, .finished r)

/-- Two concurrent `set_price` calls sharing the one store. -/
structure Sys where
  store : List Sku
  task0 : TaskSt
  task1 : TaskSt
  deriving DecidableEq, Repr

/-- Run the next atomic action of the scheduled task
(`false` = task 0, `true` = task 1). -/
def sysStep (sys : Sys) (who : Bool) : Sys :=
  if who then
    let (st, t1) := taskAct sys.store sys.task1
    { sys with store := st, task1 := t1 }
  else
    let (st, t0) := taskAct sys.store sys.task0
    { sys with store := st, task0 := t0 }

/-- Run a whole schedule of atomic actions. -/
def runSched (sched : List Bool) (sys : Sys) : Sys :=
  sched.foldl sysStep sys

/-- Two concurrent first-time `set_price` calls for the same SKU (id 7),
started against an empty store: the race scenario of §9 of the spec. -/
def raceInit : Sys :=
  { store := []
    task0 := .ready ⟨7, 100, 127, "27", "a"⟩ 1
    task1 := .ready ⟨7, 200, 254, "27", "b"⟩ 2 }

/-!
## History invariants and reachable stores
-/

/-- The most recent History Entry of a record, when one exists, mirrors
the record's current net price, tax category and gross price (§3). -/
def lastMirrors (s : Sku) : Prop :=
  match s.history.getLast? with
  | some e => e.net = s.net_retail_price ∧ e.vat = s.vat ∧
      e.gross = s.gross_retail_price
  | none => True

/-- The history's timestamps are non-decreasing in insertion order. -/
def timesOrdered (s : Sku) : Prop :=
  s.history.Chain' (fun a b => a.created_at ≤ b.created_at)

/-- Every timestamp in the history is at most `t`. -/
def timesBounded (t : Int) (s : Sku) : Prop :=
  ∀ e ∈ s.history, e.created_at ≤ t

/-- The record invariant at time `t`. -/
def InvSku (t : Int) (s : Sku) : Prop :=
  lastMirrors s ∧ timesOrdered s ∧ timesBounded t s

/-- The store invariant at time `t`: every record satisfies `InvSku`. -/
def StoreInv (t : Int) (store : List Sku) : Prop :=
  ∀ s ∈ store, InvSku t s

/-- Stores reachable from the empty store through completed `set_price`
calls (the only public mutator), with non-decreasing wall-clock reads.
The first index is the time of the latest completed call. -/
inductive Reach : Int → List Sku → Prop
  | init (t : Int) : Reach t []
  | step {t : Int} {store : List Sku} (p : SetPriceRequest) (now : Int)
      (notifyOk : Bool) (h : Reach t store) (hle : t ≤ now) :
      Reach now (PricingService.set_price store p now notifyOk).1

/-!
## Lemmas about the collection primitives
-/

theorem find_id_updateFirst (store : List Sku) (id : Nat) (f : Sku → Sku)
    (hf : ∀ s, (f s).sku = s.sku) :
    find_id (updateFirst store id f) id = (find_id store id).map f := by
  induction store with
  | nil => simp [find_id, updateFirst]
  | cons s rest ih =>
    by_cases h : s.sku = id
    · simp [find_id, updateFirst, h, hf]
    · simp [find_id, updateFirst, h, ih]

theorem find_id_append_absent (store : List Sku) (id : Nat) (ns : Sku)
    (h : find_id store id = none) (hns : ns.sku = id) :
    find_id (store ++ [ns]) id = some ns := by
  induction store with
  | nil => simp [find_id, hns]
  | cons s rest ih =>
    by_cases hs : s.sku = id
    · simp [find_id, hs] at h
    · simp [find_id, hs] at h ⊢
      exact ih h

theorem mem_updateFirst {store : List Sku} {id : Nat} {f : Sku → Sku} {s1 : Sku}
    (h : s1 ∈ updateFirst store id f) :
    s1 ∈ store ∨ ∃ s, s ∈ store ∧ s1 = f s := by
  induction store with
  | nil => simp [updateFirst] at h
  | cons s rest ih =>
    by_cases hs : s.sku = id
    · simp [updateFirst, hs] at h
      rcases h with h | h
      · exact Or.inr ⟨s, by simp, h⟩
      · exact Or.inl (by simp [h])
    · simp [updateFirst, hs] at h
      rcases h with h | h
      · exact Or.inl (by simp [h])
      · rcases ih h with h1 | ⟨s0, hs0, h1⟩
        · exact Or.inl (by simp [h1])
        · exact Or.inr ⟨s0, by simp [hs0], h1⟩

theorem changedPred_iff (dfrom dtill : Int) (s : Sku) :
    PricingService.changedPred dfrom dtill s = true ↔
      ∃ e, s.history.getLast? = some e ∧
        dfrom ≤ e.created_at ∧ e.created_at ≤ dtill := by
  cases hl : s.history.getLast? <;>
    simp [PricingService.changedPred, hl]

/-!
## Lemmas about the record invariant
-/

theorem invSku_mono {t now : Int} {s : Sku} (h : InvSku t s) (hle : t ≤ now) :
    InvSku now s :=
  ⟨h.1, h.2.1, fun e he => le_trans (h.2.2 e he) hle⟩

theorem invSku_new (t : Int) (id : Nat) : InvSku t (Sku.new id) := by
  refine ⟨?_, ?_, ?_⟩ <;>
    simp [lastMirrors, timesOrdered, timesBounded, Sku.new]

theorem invSku_applyPrice {t now : Int} {s : Sku} (h : InvSku t s)
    (hle : t ≤ now) (net : Int) (v : VAT) (cb : String) :
    InvSku now (s.applyPrice net v cb now) := by
  refine ⟨?_, ?_, ?_⟩
  · simp [lastMirrors, Sku.applyPrice, List.getLast?_concat]
  · have hchain := h.2.1
    have hbound := h.2.2
    simp only [timesOrdered, Sku.applyPrice] at hchain ⊢
    rw [List.chain'_append]
    refine ⟨hchain, List.chain'_singleton _, ?_⟩
    intro x hx y hy
    simp at hy
    subst hy
    exact le_trans (hbound x (List.mem_of_mem_getLast? hx)) hle
  · intro e he
    simp [Sku.applyPrice] at he
    rcases he with he | he
    · exact le_trans (h.2.2 e he) hle
    · simp [he]

/-!
## Claim theorems
-/

/-- C10: a `SetPrice` request whose tax code is not a recognized literal
is rejected with a bad-request error carrying the parse failure, and the
store is returned unchanged — no record is inserted for a fresh SKU and
no existing record is mutated, because the tax code is parsed before any
mutation or insertion. -/
theorem set_price_invalid_tax_unchanged (store : List Sku)
    (p : SetPriceRequest) (now : Int) (notifyOk : Bool) (e : String)
    (he : VAT.from_str p.vat = .error e) :
    PricingService.set_price store p now notifyOk
      = (store, .error (.bad_request e)) := by
  unfold PricingService.set_price
  cases hfind : find_id store p.sku <;> simp [he]

/-- C10 witness: the unrecognized tax code `"19"` is rejected on a store
holding one record for SKU 7, which is returned untouched. -/
theorem set_price_invalid_tax_unchanged_witness :
    VAT.from_str "19" = .error "Invalid tax code" ∧
    PricingService.set_price [Sku.new 7] ⟨7, 100, 119, "19", "u"⟩ 3 true
      = ([Sku.new 7], .error (.bad_request "Invalid tax code")) :=
  ⟨by decide,
   set_price_invalid_tax_unchanged [Sku.new 7] ⟨7, 100, 119, "19", "u"⟩ 3
     true "Invalid tax code" (by decide)⟩

/-- C7: the record-level `set_price` always succeeds once its category
argument is a parsed `VAT` value: it is exactly the `applyPrice` state
transition wrapped in `Ok`, so its error branch is unreachable for valid
input. -/
theorem sku_set_price_always_ok (s : Sku) (net : Int) (v : VAT)
    (expected_gross : Int) (created_by : String) (now : Int) :
    Sku.set_price s net v expected_gross created_by now
      = .ok (s.applyPrice net v created_by now) := rfl

/-- C5 counterexample: the price-history query on a SKU with no record
fails with a not-found error; it does not return an empty sequence. -/
theorem get_price_history_absent_fails :
    PricingService.get_price_history ([] : List Sku) 1
      = .error (.not_found "sku not found") := rfl

/-- C5 amended: for every SKU id that has no record in the store, the
price-history query fails with a not-found error (the `find_id` failure
propagates through `?`), rather than returning an empty sequence. -/
theorem get_price_history_absent_not_found (store : List Sku) (id : Nat)
    (h : find_id store id = none) :
    PricingService.get_price_history store id
      = .error (.not_found "sku not found") := by
  unfold PricingService.get_price_history
  rw [h]

/-- C5 amended witness: the absent SKU 1 on the empty store. -/
theorem get_price_history_absent_not_found_witness :
    find_id [] 1 = none ∧
    PricingService.get_price_history ([] : List Sku) 1
      = .error (.not_found "sku not found") :=
  ⟨rfl, get_price_history_absent_not_found [] 1 rfl⟩

/-- C6: the bulk price query always succeeds and returns exactly the
records whose SKU id is both requested and present in the store: unknown
requested ids are silently omitted and nothing outside the request is
returned. -/
theorem get_price_bulk_known_subset (store : List Sku) (skus : List Nat)
    (s : Sku) :
    ∃ l, PricingService.get_price_bulk store skus = .ok l ∧
      (s ∈ l ↔ s ∈ store ∧ s.sku ∈ skus) := by
  refine ⟨_, rfl, ?_⟩
  simp [List.mem_filter, PricingService.get_price_bulk, List.elem_iff]

/-- C8: if either bound of `GetLatestPriceChanges` fails to parse, the
operation fails with the corresponding bad-request message, and the
result is the same for every store — the store is not consulted and no
SKU ids are produced. -/
theorem get_latest_price_changes_bad_date (parseRfc : String → Option Int)
    (store store' : List Sku) (date_from date_till : String)
    (h : parseRfc date_from = none ∨ parseRfc date_till = none) :
    (PricingService.get_latest_price_changes parseRfc store date_from date_till
        = .error (.bad_request "A megadott -tol- datum hibas") ∨
      PricingService.get_latest_price_changes parseRfc store date_from date_till
        = .error (.bad_request "A megadott -ig- datum hibas")) ∧
    PricingService.get_latest_price_changes parseRfc store date_from date_till
      = PricingService.get_latest_price_changes parseRfc store' date_from date_till := by
  unfold PricingService.get_latest_price_changes
  cases hdf : parseRfc date_from with
  | none => simp
  | some dfrom =>
    cases hdt : parseRfc date_till with
    | none => simp
    | some dtill =>
      rw [hdf, hdt] at h
      rcases h with h | h <;> cases h

/-- C8 witness: a parser rejecting every string, on two different
stores. -/
theorem get_latest_price_changes_bad_date_witness :
    (PricingService.get_latest_price_changes (fun _ => none) [Sku.new 7] "x" "y"
        = .error (.bad_request "A megadott -tol- datum hibas") ∨
      PricingService.get_latest_price_changes (fun _ => none) [Sku.new 7] "x" "y"
        = .error (.bad_request "A megadott -ig- datum hibas")) ∧
    PricingService.get_latest_price_changes (fun _ => none) [Sku.new 7] "x" "y"
      = PricingService.get_latest_price_changes (fun _ => none) [] "x" "y" :=
  get_latest_price_changes_bad_date (fun _ => none) [Sku.new 7] [] "x" "y"
    (Or.inl rfl)

/-- C2: a successful `SetPrice` stores and returns the gross price
computed authoritatively as `round(net * multiplier(category))`: the
returned record carries the request's net price, the parsed category and
the computed gross, the appended history entry mirrors them, the record
is found in the resulting store, and the caller-supplied expected gross
does not influence the outcome at all. -/
theorem set_price_stores_computed_gross (store : List Sku)
    (p : SetPriceRequest) (now : Int) (v : VAT)
    (hv : VAT.from_str p.vat = .ok v) :
    ∃ s1, (PricingService.set_price store p now true).2 = .ok s1 ∧
      s1.net_retail_price = p.price_net_retail ∧
      s1.vat = v ∧
      s1.gross_retail_price = grossOf p.price_net_retail v ∧
      s1.history.getLast? =
        some ⟨p.price_net_retail, v, grossOf p.price_net_retail v,
          p.created_by, now⟩ ∧
      find_id (PricingService.set_price store p now true).1 p.sku
        = some s1 ∧
      ∀ g, PricingService.set_price store
          { p with price_gross_retail := g } now true
        = PricingService.set_price store p now true := by
  obtain ⟨psku, pnet, pgross, pvat, pcb⟩ := p
  dsimp only at hv ⊢
  unfold PricingService.set_price
  dsimp only
  cases hfind : find_id store psku with
  | some s =>
    simp only [hv, Sku.set_price, reduceIte]
    refine ⟨s.applyPrice pnet v pcb now, rfl, ?_, ?_, ?_, ?_, ?_, ?_⟩
    · simp [Sku.applyPrice]
    · simp [Sku.applyPrice]
    · simp [Sku.applyPrice]
    · simp [Sku.applyPrice, List.getLast?_concat]
    · rw [find_id_updateFirst store psku _ (fun r => by simp [Sku.applyPrice])]
      rw [hfind]
      rfl
    · intro g
      trivial
  | none =>
    simp only [hv, Sku.set_price, reduceIte]
    have hins : vecpackInsert store ((Sku.new psku).applyPrice pnet v pcb now)
        = .ok (store ++ [(Sku.new psku).applyPrice pnet v pcb now]) := by
      simp [vecpackInsert, Sku.applyPrice, Sku.new, hfind]
    rw [hins]
    refine ⟨(Sku.new psku).applyPrice pnet v pcb now, rfl, ?_, ?_, ?_, ?_, ?_, ?_⟩
    · simp [Sku.applyPrice]
    · simp [Sku.applyPrice]
    · simp [Sku.applyPrice]
    · simp [Sku.applyPrice, Sku.new, List.getLast?_concat]
    · exact find_id_append_absent store psku _ hfind (by simp [Sku.applyPrice, Sku.new])
    · intro g
      trivial

/-- C2 witness: the spec's worked example. `SetPrice(sku=100, net=1000,
tax="27")` with a mismatching caller gross of 9999 stores gross 1270; the
later `SetPrice(sku=100, net=1000, tax="5")` stores gross 1050 and the
history has length 2. -/
theorem set_price_stores_computed_gross_witness :
    VAT.from_str "5" = .ok .V5 ∧
    (∃ s1,
      (PricingService.set_price
          (PricingService.set_price [] ⟨100, 1000, 9999, "27", "u1"⟩ 1 true).1
          ⟨100, 1000, 0, "5", "u2"⟩ 2 true).2 = .ok s1 ∧
      s1.net_retail_price = 1000 ∧
      s1.vat = .V5 ∧
      s1.gross_retail_price = 1050 ∧
      s1.history.getLast? = some ⟨1000, .V5, 1050, "u2", 2⟩ ∧
      find_id (PricingService.set_price
          (PricingService.set_price [] ⟨100, 1000, 9999, "27", "u1"⟩ 1 true).1
          ⟨100, 1000, 0, "5", "u2"⟩ 2 true).1 100 = some s1) ∧
    (PricingService.set_price [] ⟨100, 1000, 9999, "27", "u1"⟩ 1 true).2
        = .ok ⟨100, 1000, .V27, 1270, [⟨1000, .V27, 1270, "u1", 1⟩]⟩ ∧
    (PricingService.set_price
        (PricingService.set_price [] ⟨100, 1000, 9999, "27", "u1"⟩ 1 true).1
        ⟨100, 1000, 0, "5", "u2"⟩ 2 true).2
        = .ok ⟨100, 1000, .V5, 1050,
            [⟨1000, .V27, 1270, "u1", 1⟩, ⟨1000, .V5, 1050, "u2", 2⟩]⟩ := by
  refine ⟨by decide, ?_, by decide, by decide⟩
  obtain ⟨s1, h1, h2, h3, h4, h5, h6, _⟩ :=
    set_price_stores_computed_gross
      (PricingService.set_price [] ⟨100, 1000, 9999, "27", "u1"⟩ 1 true).1
      ⟨100, 1000, 0, "5", "u2"⟩ 2 .V5 (by decide)
  exact ⟨s1, h1, h2, h3, h4, h5, h6⟩

/-- C3: when the store mutation of `SetPrice` succeeds but the downstream
UPL notification fails, the call returns an error to the caller while the
store keeps the applied change: the resulting store equals the one of a
successful call, and the record still carries the newly appended history
entry. -/
theorem set_price_notify_failure_keeps_mutation (store : List Sku)
    (p : SetPriceRequest) (now : Int) (v : VAT)
    (hv : VAT.from_str p.vat = .ok v) :
    (PricingService.set_price store p now false).2
        = .error (.bad_request "upl notification failed") ∧
    (PricingService.set_price store p now false).1
        = (PricingService.set_price store p now true).1 ∧
    ∃ s1, find_id (PricingService.set_price store p now false).1 p.sku
        = some s1 ∧
      s1.history.getLast? = some ⟨p.price_net_retail, v,
        grossOf p.price_net_retail v, p.created_by, now⟩ := by
  obtain ⟨psku, pnet, pgross, pvat, pcb⟩ := p
  dsimp only at hv ⊢
  unfold PricingService.set_price
  dsimp only
  cases hfind : find_id store psku with
  | some s =>
    simp only [hv, Sku.set_price, Bool.false_eq_true, reduceIte]
    refine ⟨by trivial, by trivial, s.applyPrice pnet v pcb now, ?_, ?_⟩
    · rw [find_id_updateFirst store psku _ (fun r => by simp [Sku.applyPrice])]
      rw [hfind]
      rfl
    · simp [Sku.applyPrice, List.getLast?_concat]
  | none =>
    simp only [hv, Sku.set_price, Bool.false_eq_true, reduceIte]
    have hins : vecpackInsert store ((Sku.new psku).applyPrice pnet v pcb now)
        = .ok (store ++ [(Sku.new psku).applyPrice pnet v pcb now]) := by
      simp [vecpackInsert, Sku.applyPrice, Sku.new, hfind]
    rw [hins]
    refine ⟨rfl, rfl, (Sku.new psku).applyPrice pnet v pcb now, ?_, ?_⟩
    · exact find_id_append_absent store psku _ hfind
        (by simp [Sku.applyPrice, Sku.new])
    · simp [Sku.applyPrice, Sku.new, List.getLast?_concat]

/-- C3 witness: a first-time `SetPrice` for SKU 100 whose UPL
notification fails: the caller sees an error, yet the store ends up
exactly as in the successful run and holds the new history entry. -/
theorem set_price_notify_failure_keeps_mutation_witness :
    VAT.from_str "27" = .ok .V27 ∧
    (PricingService.set_price [] ⟨100, 1000, 1270, "27", "u1"⟩ 1 false).2
        = .error (.bad_request "upl notification failed") ∧
    (PricingService.set_price [] ⟨100, 1000, 1270, "27", "u1"⟩ 1 false).1
        = (PricingService.set_price [] ⟨100, 1000, 1270, "27", "u1"⟩ 1 true).1 ∧
    ∃ s1, find_id
        (PricingService.set_price [] ⟨100, 1000, 1270, "27", "u1"⟩ 1 false).1
        100 = some s1 ∧
      s1.history.getLast? = some ⟨1000, .V27, 1270, "u1", 1⟩ := by
  refine ⟨by decide, ?_⟩
  have h := set_price_notify_failure_keeps_mutation []
    ⟨100, 1000, 1270, "27", "u1"⟩ 1 .V27 (by decide)
  exact h

/-- C4: when both bounds parse, the changed-between query succeeds, and a
SKU id is in its result exactly when some record of the store carries
that id and its most recent History Entry's timestamp lies within
`[from, till]`, both ends inclusive; records with empty history never
contribute. -/
theorem get_latest_price_changes_membership (parseRfc : String → Option Int)
    (store : List Sku) (date_from date_till : String) (dfrom dtill : Int)
    (id : Nat) (hdf : parseRfc date_from = some dfrom)
    (hdt : parseRfc date_till = some dtill) :
    ∃ ids, PricingService.get_latest_price_changes parseRfc store
        date_from date_till = .ok ids ∧
      (id ∈ ids ↔ ∃ s, s ∈ store ∧ s.sku = id ∧
        ∃ e, s.history.getLast? = some e ∧
          dfrom ≤ e.created_at ∧ e.created_at ≤ dtill) := by
  unfold PricingService.get_latest_price_changes
  rw [hdf, hdt]
  refine ⟨_, rfl, ?_⟩
  simp only [List.mem_map, List.mem_filter, changedPred_iff]
  constructor
  · rintro ⟨s, ⟨hs, e, hl, h1, h2⟩, rfl⟩
    exact ⟨s, hs, rfl, e, hl, h1, h2⟩
  · rintro ⟨s, hs, rfl, e, hl, h1, h2⟩
    exact ⟨s, ⟨hs, e, hl, h1, h2⟩, rfl⟩

/-- C4 witness: with bounds parsing to 0 and 10, a store holding SKU 5
whose last change is at time 3 and SKU 6 with empty history: 5 is
reported. -/
theorem get_latest_price_changes_membership_witness :
    ∃ ids, PricingService.get_latest_price_changes
        (fun d => if d = "A" then some 0 else if d = "B" then some 10 else none)
        [⟨5, 100, .V27, 127, [⟨100, .V27, 127, "u", 3⟩]⟩, ⟨6, 1, .V27, 1, []⟩]
        "A" "B" = .ok ids ∧
      (5 ∈ ids ↔ ∃ s,
        s ∈ [(⟨5, 100, .V27, 127, [⟨100, .V27, 127, "u", 3⟩]⟩ : Sku),
             ⟨6, 1, .V27, 1, []⟩] ∧ s.sku = 5 ∧
        ∃ e, s.history.getLast? = some e ∧
          0 ≤ e.created_at ∧ e.created_at ≤ 10) :=
  get_latest_price_changes_membership
    (fun d => if d = "A" then some 0 else if d = "B" then some 10 else none)
    [⟨5, 100, .V27, 127, [⟨100, .V27, 127, "u", 3⟩]⟩, ⟨6, 1, .V27, 1, []⟩]
    "A" "B" 0 10 5 (by decide) (by decide)

/-- C1: the check and the insert of a first-time price set are two
separate critical sections in `src/main.rs` (two `lock()` acquisitions),
so the claimed atomicity fails: after the schedule check-0, check-1 both
first-time calls for SKU 7 have passed the absence check and built their
fresh record; finishing them (insert-0, insert-1) makes the second
call's insert fail with the primitive's duplicate error, while the fully
serialized schedule lets the second call update the record instead.  Two
concurrent first-time `SetPrice` calls for the same SKU therefore do
race to insert. -/
theorem set_price_check_insert_race :
    (runSched [false, true] raceInit).task0
        = .needInsert ⟨7, 100, .V27, 127, [⟨100, .V27, 127, "a", 1⟩]⟩ ∧
    (runSched [false, true] raceInit).task1
        = .needInsert ⟨7, 200, .V27, 254, [⟨200, .V27, 254, "b", 2⟩]⟩ ∧
    (runSched [false, true, false, true] raceInit).task1
        = .finished (.error (.internal "duplicate id")) ∧
    (runSched [false, false, true, true] raceInit).task1
        = .finished (.ok ⟨7, 200, .V27, 254,
            [⟨100, .V27, 127, "a", 1⟩, ⟨200, .V27, 254, "b", 2⟩]⟩) :=
  ⟨by decide, by decide, by decide, by decide⟩

/-- StoreInv is preserved when time moves forward. -/
theorem storeInv_mono {t now : Int} {store : List Sku} (h : StoreInv t store)
    (hle : t ≤ now) : StoreInv now store :=
  fun s hs => invSku_mono (h s hs) hle

/-- One completed `set_price` call preserves the store invariant,
whatever its outcome (tax-parse failure, insert failure, notification
failure included). -/
theorem storeInv_set_price {t now : Int} {store : List Sku}
    (h : StoreInv t store) (hle : t ≤ now) (p : SetPriceRequest)
    (notifyOk : Bool) :
    StoreInv now (PricingService.set_price store p now notifyOk).1 := by
  have hmono : StoreInv now store := storeInv_mono h hle
  obtain ⟨psku, pnet, pgross, pvat, pcb⟩ := p
  unfold PricingService.set_price
  dsimp only
  cases hfind : find_id store psku with
  | some s =>
    cases hv : VAT.from_str pvat with
    | error e => exact hmono
    | ok v =>
      cases notifyOk with
      | false =>
        intro s1 hs1
        rcases mem_updateFirst hs1 with h1 | ⟨s0, hs0, rfl⟩
        · exact hmono _ h1
        · exact invSku_applyPrice (h s0 hs0) hle _ _ _
      | true =>
        intro s1 hs1
        rcases mem_updateFirst hs1 with h1 | ⟨s0, hs0, rfl⟩
        · exact hmono _ h1
        · exact invSku_applyPrice (h s0 hs0) hle _ _ _
  | none =>
    cases hv : VAT.from_str pvat with
    | error e => exact hmono
    | ok v =>
      simp only [Sku.set_price]
      have hins : vecpackInsert store ((Sku.new psku).applyPrice pnet v pcb now)
          = .ok (store ++ [(Sku.new psku).applyPrice pnet v pcb now]) := by
        simp [vecpackInsert, Sku.applyPrice, Sku.new, hfind]
      rw [hins]
      cases notifyOk with
      | false =>
        intro s1 hs1
        rcases List.mem_append.mp hs1 with h1 | h1
        · exact hmono _ h1
        · simp only [List.mem_singleton] at h1
          subst h1
          exact invSku_applyPrice (invSku_new now psku) le_rfl _ _ _
      | true =>
        intro s1 hs1
        rcases List.mem_append.mp hs1 with h1 | h1
        · exact hmono _ h1
        · simp only [List.mem_singleton] at h1
          subst h1
          exact invSku_applyPrice (invSku_new now psku) le_rfl _ _ _

/-- C9: in every store reachable through the public operations (the only
mutator being `set_price`, with non-decreasing wall-clock reads), every
record's most recent History Entry mirrors the record's current net
price, tax category and gross price, and its history's timestamps are
monotonically non-decreasing in insertion order. -/
theorem reachable_history_invariant (t : Int) (store : List Sku)
    (h : Reach t store) (s : Sku) (hs : s ∈ store) :
    lastMirrors s ∧ timesOrdered s := by
  have hinv : StoreInv t store := by
    clear hs s
    induction h with
    | init t => intro x hx; cases hx
    | step p now notifyOk hr hle ih => exact storeInv_set_price ih hle p notifyOk
  exact ⟨(hinv s hs).1, (hinv s hs).2.1⟩

/-- C9 witness: the store reached by one first-time `SetPrice` call at
time 1, whose single record satisfies both invariant parts. -/
theorem reachable_history_invariant_witness :
    lastMirrors ⟨100, 1000, .V27, 1270, [⟨1000, .V27, 1270, "u1", 1⟩]⟩ ∧
    timesOrdered ⟨100, 1000, .V27, 1270, [⟨1000, .V27, 1270, "u1", 1⟩]⟩ :=
  reachable_history_invariant 1
    (PricingService.set_price [] ⟨100, 1000, 1270, "27", "u1"⟩ 1 true).1
    (Reach.step ⟨100, 1000, 1270, "27", "u1"⟩ 1 true (Reach.init 0) (by decide))
    ⟨100, 1000, .V27, 1270, [⟨1000, .V27, 1270, "u1", 1⟩]⟩ (by decide)
